import Mathlib

/-!
Verification of the ReQUIAM delta-synchronization component
(`src/requiam/delta.py`) against its design specification.

The embedding below mirrors `delta.py`:

* `GrouperQuery` models the keys of `grouper_query_dict` that the code
  reads: `members`, `grouper_group`, `grouper_members_url`,
  `grouper_user`, `grouper_password`.
* `Delta.init` models `Delta.__init__`, which eagerly stores
  `drops = grouper_members - ldap_members` (method `_drops`),
  `adds = ldap_members - grouper_members` (method `_adds`) and
  `common = ldap_members & grouper_members` (method `_common`).
* `Delta.synchronize` models the `synchronize` method.  Remote calls are
  represented by a response oracle `resp : Nat -> BatchResponse` giving,
  for the k-th HTTP request issued, either the parsed
  `resultMetadata.resultCode` string together with the observed request
  duration in seconds, or an exception (network error, timeout, body that
  cannot be parsed for a status code).  The Python method does not catch
  exceptions, so an `exn` response makes the run abort: the output field
  `raised` records the propagated exception and no further request is
  issued.  Log calls are recorded as a trace of `LogEvent`s whose message
  strings carry exactly the data the Python format strings interpolate.
  `time.sleep` only delays; it is represented by the "pausing" info line
  the code logs next to it.
* Python's substring test `code not in "SUCCESS"` (string containment) is
  modelled by `strContains "SUCCESS" code = false`, and the list slicing
  `[lst[i:i+batch_size] for i in range(0, len(lst), batch_size)]` by
  `pyChunks batch_size lst`.  `list(self.drops)` is modelled by `setList`,
  a deterministic enumeration of the set (the spec only requires the
  iteration order to be deterministic within a run).
-/

namespace ReQUIAM

/-- Python substring containment: `strContains s pat` holds exactly when
`pat` occurs contiguously inside `s` (Python `pat in s`). -/
def strContains (s pat : String) : Bool :=
  s.data.tails.any (fun t => pat.data.isPrefixOf t)

/-- Fuel-driven worker for `pyChunks`. -/
def chunksGo (size : Nat) : Nat → List String → List (List String)
  | 0, _ => []
  | _ + 1, [] => []
  | fuel + 1, x :: xs => (x :: xs).take size :: chunksGo size fuel ((x :: xs).drop size)

/-- Python list slicing into consecutive batches:
`[lst[i:i+size] for i in range(0, len(lst), size)]` for `size > 0`
(`size = 0` makes Python `range` raise; `synchronize` models that case
separately and never reaches this function then). -/
def pyChunks (size : Nat) (xs : List String) : List (List String) :=
  if size = 0 then [] else chunksGo size xs.length xs

/-- Lexicographic order on the character lists of two strings, used only
to pick a concrete enumeration order for sets. -/
def strLe (a b : String) : Prop :=
  a.data ≤ b.data

instance : DecidableRel strLe := fun a b =>
  inferInstanceAs (Decidable (a.data ≤ b.data))

instance : IsTrans String strLe :=
  ⟨fun _ _ _ => le_trans⟩

instance : IsAntisymm String strLe :=
  ⟨fun a b h1 h2 => by
    cases a; cases b; exact congrArg String.mk (le_antisymm h1 h2)⟩

instance : IsTotal String strLe :=
  ⟨fun a b => le_total a.data b.data⟩

/-- Python `list(s)` on a set: a deterministic enumeration of the
elements (sorted, as one concrete choice of the interpreter's
implementation-defined but stable iteration order). -/
def setList (s : Finset String) : List String :=
  Quot.liftOn s.val (fun l => l.insertionSort strLe) fun a b h =>
    List.eq_of_perm_of_sorted
      ((List.perm_insertionSort _ a).trans
        (h.trans (List.perm_insertionSort _ b).symm))
      (List.sorted_insertionSort _ a) (List.sorted_insertionSort _ b)

/-- Result bundle of the Grouper query: the keys of `grouper_query_dict`
that `delta.py` reads. -/
structure GrouperQuery where
  members : Finset String
  grouper_group : String
  grouper_members_url : String
  grouper_user : String
  grouper_password : String
deriving DecidableEq

/-- State of a `Delta` instance after `__init__`: the stored inputs, the
four configuration numbers, and the three eagerly computed sets. -/
structure Delta where
  ldap_members : Finset String
  grouper_query_dict : GrouperQuery
  grouper_members : Finset String
  batch_size : Nat
  batch_timeout : Nat
  batch_delay : Nat
  sync_max : Nat
  drops : Finset String
  adds : Finset String
  common : Finset String
deriving DecidableEq

/-- `Delta.__init__`: stores the inputs and eagerly computes
`drops = grouper_members - ldap_members`, `adds = ldap_members -
grouper_members`, `common = ldap_members & grouper_members`. -/
def Delta.init (ldap_members : Finset String) (gq : GrouperQuery)
    (batch_size batch_timeout batch_delay sync_max : Nat) : Delta :=
  { ldap_members := ldap_members
    grouper_query_dict := gq
    grouper_members := gq.members
    batch_size := batch_size
    batch_timeout := batch_timeout
    batch_delay := batch_delay
    sync_max := sync_max
    drops := gq.members \ ldap_members
    adds := ldap_members \ gq.members
    common := ldap_members ∩ gq.members }

/-- Severity of a recorded log call. -/
inductive LogLevel
  | debug
  | info
  | warning
deriving DecidableEq

/-- One recorded log call: the level and the fully rendered message. -/
structure LogEvent where
  level : LogLevel
  msg : String
deriving DecidableEq

/-- HTTP verb used by the code: `requests.post` for drops,
`requests.put` for adds. -/
inductive Verb
  | post
  | put
deriving DecidableEq

/-- Phase of the synchronization loop. -/
inductive Op
  | drop
  | add
deriving DecidableEq

/-- One outbound HTTP request, with every datum the code passes to
`requests.post` / `requests.put`: URL, basic-auth credentials, the JSON
body (envelope key, `replaceAllExisting`, the `subjectId` list), the
content-type header and the timeout. -/
structure HttpRequest where
  verb : Verb
  url : String
  auth_user : String
  auth_password : String
  envelope : String
  replaceAllExisting : String
  subjectIds : List String
  contentType : String
  timeout : Nat
deriving DecidableEq

/-- Outcome of one remote call, as supplied by the response oracle:
either the parsed `resultMetadata.resultCode` string with the observed
duration in whole seconds, or an exception (network error, timeout, or a
response body that cannot be parsed for a status code). -/
inductive BatchResponse
  | exn (e : String)
  | ok (resultCode : String) (duration : Nat)
deriving DecidableEq

/-- Whether a response parsed to a status code (no exception). -/
def BatchResponse.isOk : BatchResponse → Bool
  | .exn _ => false
  | .ok _ _ => true

/-- Rendered warning of the safety gate: Python
`f"total delta ({total_delta}) exceeds maximum sync limit
({self.sync_max}), will not synchronize"`. -/
def thresholdMsg (total syncMax : Nat) : String :=
  "total delta (" ++ toString total ++ ") exceeds maximum sync limit (" ++
    toString syncMax ++ "), will not synchronize"

/-- Rendered info line naming the group being synchronized. -/
def syncMsg (d : Delta) : String :=
  "synchronizing ldap query results to " ++ d.grouper_query_dict.grouper_group

/-- Rendered info line naming the batch parameters. -/
def paramsMsg (d : Delta) : String :=
  "batch size = " ++ toString d.batch_size ++ ", batch timeout = " ++
    toString d.batch_timeout ++ " seconds, batch delay = " ++
    toString d.batch_delay ++ " seconds"

/-- Rendered warning for a batch whose result code is not accepted:
Python `"problem running batch delete, result code = %s"` resp.
`"problem running batch add, result code = %s"`. -/
def failMsg (op : Op) (code : String) : String :=
  "problem running batch " ++
    (match op with | .drop => "delete" | .add => "add") ++
    ", result code = " ++ code

/-- Rendered info line for an accepted batch: Python
`f"dropped batch {n_batches}, {len(batch)} entries, {batch_t} seconds"`
resp. the `added` variant. -/
def okMsg (op : Op) (n entries secs : Nat) : String :=
  (match op with | .drop => "dropped" | .add => "added") ++
    " batch " ++ toString n ++ ", " ++ toString entries ++ " entries, " ++
    toString secs ++ " seconds"

/-- Rendered info line logged right before `time.sleep(batch_delay)`. -/
def pauseMsg (delay : Nat) : String :=
  "pausing for " ++ toString delay ++ " seconds"

/-- The request the code builds for one batch: the drop phase posts a
`WsRestDeleteMemberRequest` envelope, the add phase puts a
`WsRestAddMemberRequest` envelope; both carry `replaceAllExisting = "F"`,
one `subjectLookups` entry per batch member, content-type `text/x-json`,
the members URL and the basic-auth credentials from
`grouper_query_dict`, and `batch_timeout` as the request timeout. -/
def mkRequest (op : Op) (d : Delta) (batch : List String) : HttpRequest :=
  { verb := match op with | .drop => .post | .add => .put
    url := d.grouper_query_dict.grouper_members_url
    auth_user := d.grouper_query_dict.grouper_user
    auth_password := d.grouper_query_dict.grouper_password
    envelope := match op with
      | .drop => "WsRestDeleteMemberRequest"
      | .add => "WsRestAddMemberRequest"
    replaceAllExisting := "F"
    subjectIds := batch
    contentType := "text/x-json"
    timeout := d.batch_timeout }

/-- Output of one phase of the loop: the log events recorded, the
requests issued, the number of requests consumed from the oracle so far,
and the exception that propagated, if any. -/
structure BatchOut where
  trace : List LogEvent
  requests : List HttpRequest
  reqCount : Nat
  raised : Option String
deriving DecidableEq

/-- One phase of `synchronize` (the drop loop or the add loop): for each
batch in order, issue the request, then either propagate the exception
(the Python code has no try/except, so the loop and the whole method stop
there), or log the success info line when the returned code passes the
`code not in "SUCCESS"` test and the failure warning otherwise, then log
the pausing line when `batch_delay > 0`.  `n` is the number of batches
already processed in this phase, `rc` the number of requests already
issued in this run. -/
def runBatches (op : Op) (d : Delta) (resp : Nat → BatchResponse) :
    List (List String) → Nat → Nat → BatchOut
  | [], _, rc => ⟨[], [], rc, none⟩
  | batch :: rest, n, rc =>
    let req := mkRequest op d batch
    match resp rc with
    | .exn e => ⟨[], [req], rc + 1, some e⟩
    | .ok code secs =>
      let ev : LogEvent :=
        if strContains "SUCCESS" code then
          ⟨.info, okMsg op (n + 1) batch.length secs⟩
        else
          ⟨.warning, failMsg op code⟩
      let pause : List LogEvent :=
        if 0 < d.batch_delay then [⟨.info, pauseMsg d.batch_delay⟩] else []
      let restOut := runBatches op d resp rest (n + 1) (rc + 1)
      ⟨ev :: pause ++ restOut.trace, req :: restOut.requests,
        restOut.reqCount, restOut.raised⟩

/-- Result of a `synchronize` run: recorded log events, issued requests,
the exception that propagated out of the method (if any), and the state
of the instance when the method ends — the method body assigns no
attribute, so the embedding threads the state through unchanged. -/
structure SyncOutput where
  trace : List LogEvent
  requests : List HttpRequest
  raised : Option String
  delta : Delta
deriving DecidableEq

/-- Log events every non-gated run records before the drop loop starts. -/
def headTrace (d : Delta) : List LogEvent :=
  [⟨.debug, "entered"⟩, ⟨.info, syncMsg d⟩, ⟨.info, paramsMsg d⟩,
    ⟨.info, "processing drops:"⟩]

/-- The drop loop of `synchronize`: `list(self.drops)` batched by
`batch_size`, processed from request index 0. -/
def dropPhase (d : Delta) (resp : Nat → BatchResponse) : BatchOut :=
  runBatches .drop d resp (pyChunks d.batch_size (setList d.drops)) 0 0

/-- The add loop of `synchronize`: `list(self.adds)` batched by
`batch_size`, processed after the drop-phase requests. -/
def addPhase (d : Delta) (resp : Nat → BatchResponse) : BatchOut :=
  runBatches .add d resp (pyChunks d.batch_size (setList d.adds)) 0
    (dropPhase d resp).reqCount

/-- `Delta.synchronize`: compute `total_delta = len(adds) + len(drops)`;
if it exceeds `sync_max`, log the warning and return at once with no
request issued.  Otherwise log the run header and process all drop
batches, then all add batches.  `batch_size = 0` makes the Python
`range(0, n, 0)` in the first batching comprehension raise a
`ValueError`, which propagates.  An exception from a batch also
propagates, ending the run where it happened. -/
def Delta.synchronize (d : Delta) (resp : Nat → BatchResponse) : SyncOutput :=
  if d.adds.card + d.drops.card > d.sync_max then
    { trace := [⟨.debug, "entered"⟩,
        ⟨.warning, thresholdMsg (d.adds.card + d.drops.card) d.sync_max⟩,
        ⟨.debug, "finished synchronize"⟩]
      requests := []
      raised := none
      delta := d }
  else if d.batch_size = 0 then
    { trace := headTrace d
      requests := []
      raised := some "range() arg 3 must not be zero"
      delta := d }
  else
    match (dropPhase d resp).raised with
    | some e =>
      { trace := headTrace d ++ (dropPhase d resp).trace
        requests := (dropPhase d resp).requests
        raised := some e
        delta := d }
    | none =>
      match (addPhase d resp).raised with
      | some e =>
        { trace := headTrace d ++ (dropPhase d resp).trace ++
            ⟨.info, "processing adds:"⟩ :: (addPhase d resp).trace
          requests := (dropPhase d resp).requests ++ (addPhase d resp).requests
          raised := some e
          delta := d }
      | none =>
        { trace := headTrace d ++ (dropPhase d resp).trace ++
            ⟨.info, "processing adds:"⟩ :: (addPhase d resp).trace ++
            [⟨.debug, "finished synchronize"⟩]
          requests := (dropPhase d resp).requests ++ (addPhase d resp).requests
          raised := none
          delta := d }

/-- Messages of the warning-level events of a trace, in order. -/
def warnMsgs (tr : List LogEvent) : List String :=
  (tr.filter (fun e => e.level == LogLevel.warning)).map LogEvent.msg

/-! Helper lemmas about the embedding. -/

theorem strContains_iff (s pat : String) :
    strContains s pat = true ↔ pat.data <:+: s.data := by
  unfold strContains
  rw [List.any_eq_true]
  constructor
  · rintro ⟨t, ht, hp⟩
    rw [List.mem_tails] at ht
    exact List.infix_iff_prefix_suffix.mpr
      ⟨t, List.isPrefixOf_iff_prefix.mp hp, ht⟩
  · intro h
    rcases List.infix_iff_prefix_suffix.mp h with ⟨t, hp, hsuf⟩
    exact ⟨t, (List.mem_tails _ _).mpr hsuf, List.isPrefixOf_iff_prefix.mpr hp⟩

theorem string_data_append (a b : String) : (a ++ b).data = a.data ++ b.data :=
  rfl

theorem strContains_mid (a b c : String) :
    strContains (a ++ b ++ c) b = true := by
  rw [strContains_iff, string_data_append, string_data_append]
  exact List.infix_append _ _ _

theorem strContains_right (a b : String) :
    strContains (a ++ b) b = true := by
  rw [strContains_iff, string_data_append]
  exact (List.suffix_append _ _).isInfix

theorem strContains_self (s : String) : strContains s s = true := by
  rw [strContains_iff]

theorem strContains_append_right (r x pat : String)
    (h : strContains r pat = true) : strContains (r ++ x) pat = true := by
  rw [strContains_iff] at h ⊢
  rw [string_data_append]
  exact h.trans (List.prefix_append r.data x.data).isInfix

theorem thresholdMsg_names (t m : Nat) :
    strContains (thresholdMsg t m) (toString t) = true ∧
    strContains (thresholdMsg t m) (toString m) = true := by
  constructor
  · exact strContains_append_right _ _ _ (strContains_append_right _ _ _
      (strContains_append_right _ _ _ (strContains_right _ _)))
  · exact strContains_append_right _ _ _ (strContains_right _ _)

theorem failMsg_names (op : Op) (c : String) :
    strContains (failMsg op c) c = true := by
  cases op <;> exact strContains_right _ _

theorem setList_coe (s : Finset String) :
    (setList s : Multiset String) = s.val := by
  rcases s with ⟨val, nd⟩
  induction val using Quot.inductionOn with
  | _ l => exact Multiset.coe_eq_coe.mpr (List.perm_insertionSort _ l)

theorem setList_length (s : Finset String) :
    (setList s).length = s.card := by
  have h := congrArg Multiset.card (setList_coe s)
  simpa using h

theorem setList_mem (s : Finset String) (a : String) :
    a ∈ setList s ↔ a ∈ s := by
  constructor
  · intro h
    rw [Finset.mem_def, ← setList_coe]
    exact Multiset.mem_coe.mpr h
  · intro h
    rw [Finset.mem_def, ← setList_coe] at h
    exact Multiset.mem_coe.mp h

theorem setList_nodup (s : Finset String) : (setList s).Nodup := by
  have h : (setList s : Multiset String).Nodup := by
    rw [setList_coe]; exact s.nodup
  simpa using h

theorem chunk_count_arith (n size : Nat) (hs : 0 < size) (hn : 0 < n) :
    (n - size + size - 1) / size + 1 = (n + size - 1) / size := by
  rcases le_or_lt n size with h | h
  · have h1 : n - size = 0 := by omega
    rw [h1]
    have h2 : (0 + size - 1) / size = 0 := Nat.div_eq_of_lt (by omega)
    rw [h2]
    have h3 : n + size - 1 = (n - 1) + size := by omega
    rw [h3, Nat.add_div_right _ hs, Nat.div_eq_of_lt (by omega)]
  · have h3 : n + size - 1 = (n - 1) + size := by omega
    have h4 : n - size + size - 1 = (n - size - 1) + size := by omega
    rw [h3, h4, Nat.add_div_right _ hs, Nat.add_div_right _ hs]
    have h5 : n - 1 = (n - size - 1) + size := by omega
    rw [h5, Nat.add_div_right _ hs]

theorem chunksGo_flatten (size : Nat) (hs : 0 < size) :
    ∀ (fuel : Nat) (xs : List String), xs.length ≤ fuel →
      (chunksGo size fuel xs).flatten = xs := by
  intro fuel
  induction fuel with
  | zero =>
    intro xs hx
    have hnil : xs = [] := List.eq_nil_of_length_eq_zero (by omega)
    subst hnil
    simp [chunksGo]
  | succ fuel ih =>
    intro xs hx
    cases xs with
    | nil => simp [chunksGo]
    | cons x t =>
      simp only [chunksGo, List.flatten_cons]
      rw [ih _ (by simp only [List.length_drop]; simp at hx ⊢; omega)]
      exact List.take_append_drop _ _

theorem chunksGo_length (size : Nat) (hs : 0 < size) :
    ∀ (fuel : Nat) (xs : List String), xs.length ≤ fuel →
      (chunksGo size fuel xs).length = (xs.length + size - 1) / size := by
  intro fuel
  induction fuel with
  | zero =>
    intro xs hx
    have hnil : xs = [] := List.eq_nil_of_length_eq_zero (by omega)
    subst hnil
    simp only [chunksGo, List.length_nil]
    exact (Nat.div_eq_of_lt (by omega)).symm
  | succ fuel ih =>
    intro xs hx
    cases xs with
    | nil =>
      simp only [chunksGo, List.length_nil]
      exact (Nat.div_eq_of_lt (by omega)).symm
    | cons x t =>
      simp only [chunksGo, List.length_cons]
      rw [ih _ (by simp only [List.length_drop]; simp at hx ⊢; omega)]
      rw [List.length_drop]
      exact chunk_count_arith (t.length + 1) size hs (by omega)

theorem chunksGo_mem (size : Nat) (hs : 0 < size) :
    ∀ (fuel : Nat) (xs : List String) (c : List String), xs.length ≤ fuel →
      c ∈ chunksGo size fuel xs → c ≠ [] ∧ c.length ≤ size := by
  intro fuel
  induction fuel with
  | zero =>
    intro xs c hx hc
    have hnil : xs = [] := List.eq_nil_of_length_eq_zero (by omega)
    subst hnil
    simp [chunksGo] at hc
  | succ fuel ih =>
    intro xs c hx hc
    cases xs with
    | nil => simp [chunksGo] at hc
    | cons x t =>
      simp only [chunksGo, List.mem_cons] at hc
      rcases hc with rfl | hc
      · refine ⟨?_, by simp [List.length_take]⟩
        intro hnil
        have hlen := congrArg List.length hnil
        simp [List.length_take] at hlen
        omega
      · exact ih _ _ (by simp only [List.length_drop]; simp at hx ⊢; omega) hc

theorem chunksGo_getD (size : Nat) (hs : 0 < size) :
    ∀ (fuel : Nat) (xs : List String) (i : Nat), xs.length ≤ fuel →
      i + 1 < (chunksGo size fuel xs).length →
      ((chunksGo size fuel xs).getD i []).length = size := by
  intro fuel
  induction fuel with
  | zero =>
    intro xs i hx hi
    have hnil : xs = [] := List.eq_nil_of_length_eq_zero (by omega)
    subst hnil
    simp [chunksGo] at hi
  | succ fuel ih =>
    intro xs i hx hi
    cases xs with
    | nil => simp [chunksGo] at hi
    | cons x t =>
      have hdl : ((x :: t).drop size).length ≤ fuel := by
        simp only [List.length_drop]
        simp at hx ⊢
        omega
      cases i with
      | zero =>
        simp only [chunksGo, List.length_cons] at hi
        simp only [chunksGo, List.getD_cons_zero]
        have hlen := chunksGo_length size hs fuel ((x :: t).drop size) hdl
        have h1 : 1 ≤ ((x :: t).drop size).length := by
          by_contra hcon
          push_neg at hcon
          have h0 : ((x :: t).drop size).length = 0 := by omega
          rw [hlen, h0, Nat.div_eq_of_lt (by omega)] at hi
          omega
        have h2 : size < (x :: t).length := by
          rw [List.length_drop] at h1
          omega
        simp only [List.length_take]
        omega
      | succ i =>
        simp only [chunksGo, List.length_cons, List.getD_cons_succ] at hi ⊢
        exact ih _ _ hdl (by omega)

theorem pyChunks_flatten (size : Nat) (hs : 0 < size) (xs : List String) :
    (pyChunks size xs).flatten = xs := by
  unfold pyChunks
  rw [if_neg (by omega)]
  exact chunksGo_flatten size hs _ xs le_rfl

theorem pyChunks_length (size : Nat) (hs : 0 < size) (xs : List String) :
    (pyChunks size xs).length = (xs.length + size - 1) / size := by
  unfold pyChunks
  rw [if_neg (by omega)]
  exact chunksGo_length size hs _ xs le_rfl

theorem pyChunks_mem (size : Nat) (hs : 0 < size) (xs c : List String)
    (hc : c ∈ pyChunks size xs) : c ≠ [] ∧ c.length ≤ size := by
  unfold pyChunks at hc
  rw [if_neg (by omega)] at hc
  exact chunksGo_mem size hs _ xs c le_rfl hc

theorem pyChunks_getD (size : Nat) (hs : 0 < size) (xs : List String) (i : Nat)
    (hi : i + 1 < (pyChunks size xs).length) :
    ((pyChunks size xs).getD i []).length = size := by
  unfold pyChunks at hi ⊢
  rw [if_neg (by omega)] at hi ⊢
  exact chunksGo_getD size hs _ xs i le_rfl hi

theorem runBatches_ok (op : Op) (d : Delta) (resp : Nat → BatchResponse) :
    ∀ (batches : List (List String)) (n rc : Nat),
      (∀ k, rc ≤ k → k < rc + batches.length → (resp k).isOk = true) →
      (runBatches op d resp batches n rc).requests =
        batches.map (mkRequest op d) ∧
      (runBatches op d resp batches n rc).reqCount = rc + batches.length ∧
      (runBatches op d resp batches n rc).raised = none := by
  intro batches
  induction batches with
  | nil => intro n rc _; simp [runBatches]
  | cons b rest ih =>
    intro n rc h
    have hok : (resp rc).isOk = true :=
      h rc le_rfl (by simp only [List.length_cons]; omega)
    cases hr : resp rc with
    | exn e => rw [hr] at hok; simp [BatchResponse.isOk] at hok
    | ok code secs =>
      have ihr := ih (n + 1) (rc + 1)
        (fun k hk1 hk2 => h k (by omega)
          (by simp only [List.length_cons]; omega))
      refine ⟨?_, ?_, ?_⟩ <;>
        · simp [runBatches, hr, ihr.1, ihr.2.1, ihr.2.2]
          try omega

theorem runBatches_abort (op : Op) (d : Delta) (resp : Nat → BatchResponse)
    (e : String) (j : Nat) :
    ∀ (batches : List (List String)) (n rc : Nat),
      rc ≤ j → j < rc + batches.length → resp j = .exn e →
      (∀ i, rc ≤ i → i < j → (resp i).isOk = true) →
      (runBatches op d resp batches n rc).raised = some e ∧
      (runBatches op d resp batches n rc).requests.length = j - rc + 1 := by
  intro batches
  induction batches with
  | nil => intro n rc h1 h2 _ _; simp at h2; omega
  | cons b rest ih =>
    intro n rc h1 h2 h3 h4
    rcases Nat.eq_or_lt_of_le h1 with rfl | hlt
    · simp [runBatches, h3]
    · have hok : (resp rc).isOk = true := h4 rc le_rfl hlt
      cases hr : resp rc with
      | exn e2 => rw [hr] at hok; simp [BatchResponse.isOk] at hok
      | ok code secs =>
        have ihr := ih (n + 1) (rc + 1) (by omega)
          (by simp only [List.length_cons] at h2 ⊢; omega) h3
          (fun i hi1 hi2 => h4 i (by omega) hi2)
        refine ⟨?_, ?_⟩ <;>
        · simp [runBatches, hr, ihr.1, ihr.2]
          try omega

theorem runBatches_warn_mem (op : Op) (d : Delta) (resp : Nat → BatchResponse)
    (c : String) (secs j : Nat) :
    ∀ (batches : List (List String)) (n rc : Nat),
      rc ≤ j → j < rc + batches.length → resp j = .ok c secs →
      strContains "SUCCESS" c = false →
      (∀ i, rc ≤ i → i < j → (resp i).isOk = true) →
      LogEvent.mk .warning (failMsg op c) ∈
        (runBatches op d resp batches n rc).trace := by
  intro batches
  induction batches with
  | nil => intro n rc h1 h2 _ _ _; simp at h2; omega
  | cons b rest ih =>
    intro n rc h1 h2 h3 hf h4
    rcases Nat.eq_or_lt_of_le h1 with rfl | hlt
    · simp [runBatches, h3, hf]
    · have hok : (resp rc).isOk = true := h4 rc le_rfl hlt
      cases hr : resp rc with
      | exn e2 => rw [hr] at hok; simp [BatchResponse.isOk] at hok
      | ok code2 secs2 =>
        have ihr := ih (n + 1) (rc + 1) (by omega)
          (by simp only [List.length_cons] at h2 ⊢; omega) h3 hf
          (fun i hi1 hi2 => h4 i (by omega) hi2)
        simp only [runBatches, hr]
        exact List.mem_cons_of_mem _ (List.mem_append_right _ ihr)

theorem sync_delta (d : Delta) (resp : Nat → BatchResponse) :
    (d.synchronize resp).delta = d := by
  unfold Delta.synchronize
  split
  · rfl
  · split
    · rfl
    · split
      · rfl
      · split <;> rfl

theorem sync_gate (d : Delta) (resp : Nat → BatchResponse)
    (h : d.adds.card + d.drops.card > d.sync_max) :
    d.synchronize resp =
      { trace := [LogEvent.mk .debug "entered",
          LogEvent.mk .warning
            (thresholdMsg (d.adds.card + d.drops.card) d.sync_max),
          LogEvent.mk .debug "finished synchronize"]
        requests := []
        raised := none
        delta := d } := by
  unfold Delta.synchronize
  rw [if_pos h]

theorem sync_head (d : Delta) (resp : Nat → BatchResponse)
    (h : ¬ d.adds.card + d.drops.card > d.sync_max) :
    ∃ rest, (d.synchronize resp).trace = headTrace d ++ rest := by
  unfold Delta.synchronize
  rw [if_neg h]
  split
  · exact ⟨[], (List.append_nil _).symm⟩
  · split
    · exact ⟨_, rfl⟩
    · split
      · exact ⟨_, rfl⟩
      · exact ⟨_, rfl⟩

theorem dropPhase_ok (d : Delta) (resp : Nat → BatchResponse)
    (hok : ∀ k, (resp k).isOk = true) :
    (dropPhase d resp).requests =
      (pyChunks d.batch_size (setList d.drops)).map (mkRequest .drop d) ∧
    (dropPhase d resp).reqCount =
      (pyChunks d.batch_size (setList d.drops)).length ∧
    (dropPhase d resp).raised = none := by
  have h := runBatches_ok .drop d resp
    (pyChunks d.batch_size (setList d.drops)) 0 0 (fun k _ _ => hok k)
  exact ⟨h.1, by rw [dropPhase, h.2.1]; omega, h.2.2⟩

theorem addPhase_ok (d : Delta) (resp : Nat → BatchResponse)
    (hok : ∀ k, (resp k).isOk = true) :
    (addPhase d resp).requests =
      (pyChunks d.batch_size (setList d.adds)).map (mkRequest .add d) ∧
    (addPhase d resp).raised = none := by
  have h := runBatches_ok .add d resp
    (pyChunks d.batch_size (setList d.adds)) 0 (dropPhase d resp).reqCount
    (fun k _ _ => hok k)
  exact ⟨h.1, h.2.2⟩

theorem sync_ok (d : Delta) (resp : Nat → BatchResponse)
    (hgate : ¬ d.adds.card + d.drops.card > d.sync_max)
    (hbs : d.batch_size ≠ 0)
    (hok : ∀ k, (resp k).isOk = true) :
    (d.synchronize resp).raised = none ∧
    (d.synchronize resp).requests =
      (pyChunks d.batch_size (setList d.drops)).map (mkRequest .drop d) ++
        (pyChunks d.batch_size (setList d.adds)).map (mkRequest .add d) ∧
    (d.synchronize resp).trace =
      headTrace d ++ (dropPhase d resp).trace ++
        LogEvent.mk .info "processing adds:" :: (addPhase d resp).trace ++
        [LogEvent.mk .debug "finished synchronize"] := by
  have hd := dropPhase_ok d resp hok
  have ha := addPhase_ok d resp hok
  unfold Delta.synchronize
  rw [if_neg hgate, if_neg hbs]
  simp only [hd.2.2, ha.2]
  exact ⟨by simp, by simp [hd.1, ha.1], by simp [List.append_assoc]⟩

theorem sync_abort (d : Delta) (resp : Nat → BatchResponse)
    (hgate : ¬ d.adds.card + d.drops.card > d.sync_max)
    (hbs : d.batch_size ≠ 0) (j : Nat) (e : String)
    (hj : j < (pyChunks d.batch_size (setList d.drops)).length +
      (pyChunks d.batch_size (setList d.adds)).length)
    (he : resp j = .exn e)
    (hok : ∀ i, i < j → (resp i).isOk = true) :
    (d.synchronize resp).raised = some e ∧
    (d.synchronize resp).requests.length = j + 1 := by
  rcases Nat.lt_or_ge j (pyChunks d.batch_size (setList d.drops)).length
    with hcase | hcase
  · have hab := runBatches_abort .drop d resp e j
      (pyChunks d.batch_size (setList d.drops)) 0 0 (Nat.zero_le j)
      (by omega) he (fun i _ hi => hok i hi)
    have hab1 : (dropPhase d resp).raised = some e := hab.1
    have hab2 : (dropPhase d resp).requests.length = j - 0 + 1 := hab.2
    unfold Delta.synchronize
    rw [if_neg hgate, if_neg hbs]
    simp only [hab1]
    exact ⟨by simp, by simp [hab2]⟩
  · have hd := runBatches_ok .drop d resp
      (pyChunks d.batch_size (setList d.drops)) 0 0
      (fun k _ hk => hok k (by omega))
    have hd1 : (dropPhase d resp).requests =
        (pyChunks d.batch_size (setList d.drops)).map (mkRequest .drop d) :=
      hd.1
    have hd2 : (dropPhase d resp).reqCount =
        (pyChunks d.batch_size (setList d.drops)).length := by
      rw [dropPhase, hd.2.1]; omega
    have hd3 : (dropPhase d resp).raised = none := hd.2.2
    have hab := runBatches_abort .add d resp e j
      (pyChunks d.batch_size (setList d.adds)) 0 (dropPhase d resp).reqCount
      (by omega) (by rw [hd2]; omega) he
      (fun i _ hi => hok i hi)
    have hab1 : (addPhase d resp).raised = some e := hab.1
    have hab2 : (addPhase d resp).requests.length =
        j - (dropPhase d resp).reqCount + 1 := hab.2
    unfold Delta.synchronize
    rw [if_neg hgate, if_neg hbs]
    simp only [hd3, hab1]
    refine ⟨by simp, ?_⟩
    simp only [List.length_append, hd1, List.length_map, hab2, hd2]
    omega

theorem subjectIds_map (op : Op) (d : Delta) (batches : List (List String)) :
    (batches.map (mkRequest op d)).map (fun r => r.subjectIds) = batches := by
  rw [List.map_map]
  have h : ((fun r => r.subjectIds) ∘ mkRequest op d) = id := by
    funext b
    rfl
  rw [h, List.map_id]

theorem runBatches_requests_mem (op : Op) (d : Delta)
    (resp : Nat → BatchResponse) :
    ∀ (batches : List (List String)) (n rc : Nat) (r : HttpRequest),
      r ∈ (runBatches op d resp batches n rc).requests →
      ∃ b ∈ batches, r = mkRequest op d b := by
  intro batches
  induction batches with
  | nil => intro n rc r hr; simp [runBatches] at hr
  | cons b rest ih =>
    intro n rc r hr
    cases hresp : resp rc with
    | exn e =>
      simp only [runBatches, hresp] at hr
      simp at hr
      exact ⟨b, List.mem_cons_self b rest, hr⟩
    | ok code secs =>
      simp only [runBatches, hresp] at hr
      rcases List.mem_cons.mp hr with rfl | hr2
      · exact ⟨b, List.mem_cons_self b rest, rfl⟩
      · rcases ih (n + 1) (rc + 1) r hr2 with ⟨b2, hb2, heq⟩
        exact ⟨b2, List.mem_cons_of_mem b hb2, heq⟩

theorem sync_requests_mem (d : Delta) (resp : Nat → BatchResponse)
    (r : HttpRequest) (hr : r ∈ (d.synchronize resp).requests) :
    (∃ b ∈ pyChunks d.batch_size (setList d.drops), r = mkRequest .drop d b) ∨
    (∃ b ∈ pyChunks d.batch_size (setList d.adds), r = mkRequest .add d b) := by
  unfold Delta.synchronize at hr
  by_cases h1 : d.adds.card + d.drops.card > d.sync_max
  · rw [if_pos h1] at hr
    simp at hr
  · rw [if_neg h1] at hr
    by_cases h2 : d.batch_size = 0
    · rw [if_pos h2] at hr
      simp at hr
    · rw [if_neg h2] at hr
      rcases hd : (dropPhase d resp).raised with _ | e
      · simp only [hd] at hr
        rcases ha : (addPhase d resp).raised with _ | e2 <;>
          simp only [ha] at hr <;>
          rcases List.mem_append.mp hr with hr2 | hr2
        · exact Or.inl (runBatches_requests_mem .drop d resp _ 0 0 r hr2)
        · exact Or.inr (runBatches_requests_mem .add d resp _ 0
            (dropPhase d resp).reqCount r hr2)
        · exact Or.inl (runBatches_requests_mem .drop d resp _ 0 0 r hr2)
        · exact Or.inr (runBatches_requests_mem .add d resp _ 0
            (dropPhase d resp).reqCount r hr2)
      · simp only [hd] at hr
        exact Or.inl (runBatches_requests_mem .drop d resp _ 0 0 r hr)

/-- C2: the constructor computes `common = authoritative ∩ managed`,
`adds = authoritative − managed`, `drops = managed − authoritative`
(authoritative = `ldap_members`, managed = `grouper_members`); with the
managed set empty, `adds = authoritative` and `drops = ∅`; with the
authoritative set empty, `adds = ∅` and `drops = managed`; with equal
sets, `adds = drops = ∅` and `common = authoritative`. -/
theorem claim_C2 (a : Finset String) (gq : GrouperQuery)
    (bs bt bd sm : Nat) :
    (Delta.init a gq bs bt bd sm).common = a ∩ gq.members ∧
    (Delta.init a gq bs bt bd sm).adds = a \ gq.members ∧
    (Delta.init a gq bs bt bd sm).drops = gq.members \ a ∧
    ((Delta.init a { gq with members := ∅ } bs bt bd sm).adds = a ∧
      (Delta.init a { gq with members := ∅ } bs bt bd sm).drops = ∅) ∧
    ((Delta.init ∅ gq bs bt bd sm).adds = ∅ ∧
      (Delta.init ∅ gq bs bt bd sm).drops = gq.members) ∧
    ((Delta.init gq.members gq bs bt bd sm).adds = ∅ ∧
      (Delta.init gq.members gq bs bt bd sm).drops = ∅ ∧
      (Delta.init gq.members gq bs bt bd sm).common = gq.members) := by
  refine ⟨rfl, rfl, rfl, ⟨?_, ?_⟩, ⟨?_, ?_⟩, ?_, ?_, ?_⟩ <;>
    simp [Delta.init]

/-- C3: the three sets computed at construction are pairwise disjoint and
their union is `authoritative ∪ managed`. -/
theorem claim_C3 (a : Finset String) (gq : GrouperQuery)
    (bs bt bd sm : Nat) :
    (Delta.init a gq bs bt bd sm).adds ∩ (Delta.init a gq bs bt bd sm).drops = ∅ ∧
    (Delta.init a gq bs bt bd sm).adds ∩ (Delta.init a gq bs bt bd sm).common = ∅ ∧
    (Delta.init a gq bs bt bd sm).drops ∩ (Delta.init a gq bs bt bd sm).common = ∅ ∧
    (Delta.init a gq bs bt bd sm).adds ∪ (Delta.init a gq bs bt bd sm).drops ∪
      (Delta.init a gq bs bt bd sm).common = a ∪ gq.members := by
  refine ⟨?_, ?_, ?_, ?_⟩ <;>
  · ext x
    simp [Delta.init]
    tauto

/-- Inputs used to witness C1: a delta whose total change count 4
exceeds the limit 2, and one whose total 1 equals the limit 1. -/
def gqC1 : GrouperQuery :=
  { members := {"d"}
    grouper_group := "test:grp"
    grouper_members_url := "https://grouper.example.org/members"
    grouper_user := "usr"
    grouper_password := "pw" }

def dC1 : Delta := Delta.init {"a", "b", "c"} gqC1 2 5 0 2

def dC1b : Delta := Delta.init {"a"} { gqC1 with members := ∅ } 2 5 0 1

def respC1 : Nat → BatchResponse := fun _ => .ok "SUCCESS" 1

/-- C1: when the total pending change count strictly exceeds `sync_max`,
`synchronize` issues no remote request, raises nothing, and logs exactly
one warning whose message names the computed total and the configured
maximum; and when the total equals `sync_max`, the run proceeds past the
gate into the drop phase. -/
theorem claim_C1 (d d2 : Delta) (resp resp2 : Nat → BatchResponse)
    (hgt : d.adds.card + d.drops.card > d.sync_max)
    (heq : d2.adds.card + d2.drops.card = d2.sync_max) :
    ((d.synchronize resp).requests = [] ∧
      (d.synchronize resp).raised = none ∧
      ∃ m, warnMsgs (d.synchronize resp).trace = [m] ∧
        strContains m (toString (d.adds.card + d.drops.card)) = true ∧
        strContains m (toString d.sync_max) = true) ∧
    LogEvent.mk .info "processing drops:" ∈ (d2.synchronize resp2).trace := by
  constructor
  · rw [sync_gate d resp hgt]
    refine ⟨rfl, rfl, thresholdMsg (d.adds.card + d.drops.card) d.sync_max,
      ?_, (thresholdMsg_names _ _).1, (thresholdMsg_names _ _).2⟩
    have hb : (LogLevel.debug == LogLevel.warning) = false := by decide
    have hw : (LogLevel.warning == LogLevel.warning) = true := by decide
    simp [warnMsgs, List.filter, hb, hw]
  · rcases sync_head d2 resp2 (by omega) with ⟨rest, hrest⟩
    rw [hrest]
    simp [headTrace]

theorem claim_C1_witness :
    (dC1.adds.card + dC1.drops.card > dC1.sync_max) ∧
    (dC1b.adds.card + dC1b.drops.card = dC1b.sync_max) ∧
    (((dC1.synchronize respC1).requests = [] ∧
      (dC1.synchronize respC1).raised = none ∧
      ∃ m, warnMsgs (dC1.synchronize respC1).trace = [m] ∧
        strContains m (toString (dC1.adds.card + dC1.drops.card)) = true ∧
        strContains m (toString dC1.sync_max) = true) ∧
    LogEvent.mk .info "processing drops:" ∈ (dC1b.synchronize respC1).trace) :=
  ⟨by decide, by decide, claim_C1 dC1 dC1b respC1 respC1 (by decide) (by decide)⟩

/-- Inputs exhibiting C4: the managed group holds one member to drop,
and the remote call returns the result code "SUCC". -/
def gqC4 : GrouperQuery :=
  { members := {"u1"}
    grouper_group := "test:grp4"
    grouper_members_url := "https://grouper.example.org/members"
    grouper_user := "usr"
    grouper_password := "pw" }

def dC4 : Delta := Delta.init ∅ gqC4 2 5 0 100

def respC4 : Nat → BatchResponse := fun _ => .ok "SUCC" 3

/-- C4 (code bug): the claim and the documented protocol require success
to be determined by exact equality with "SUCCESS".  The code instead
tests `resultCode not in "SUCCESS"` — Python substring containment — so
the result code "SUCC", a proper substring of "SUCCESS" and not equal to
it, is logged as a success ("dropped batch 1, 1 entries, 3 seconds")
with no warning. -/
theorem claim_C4 :
    ("SUCC" : String) ≠ "SUCCESS" ∧
    strContains "SUCCESS" "SUCC" = true ∧
    warnMsgs ((dC4.synchronize respC4).trace) = [] ∧
    LogEvent.mk .info "dropped batch 1, 1 entries, 3 seconds" ∈
      (dC4.synchronize respC4).trace := by
  decide

/-- Inputs exhibiting and witnessing C5: four members to drop (two
batches of two), one to add, and a response oracle raising a connection
timeout on the very first request. -/
def gqC5 : GrouperQuery :=
  { members := {"u1", "u2", "u3", "u4"}
    grouper_group := "test:grp5"
    grouper_members_url := "https://grouper.example.org/members"
    grouper_user := "usr"
    grouper_password := "pw" }

def dC5 : Delta := Delta.init {"a1"} gqC5 2 5 0 100

def respC5 : Nat → BatchResponse :=
  fun k => if k = 0 then .exn "ConnectTimeout" else .ok "SUCCESS" 1

/-- C5 counterexample: with a timeout on the first drop batch, the run is
aborted — the exception propagates (`raised`), only 1 of the 3 batch
requests is ever issued, and nothing is logged about the failure — so
the error is neither caught at batch granularity, nor logged, nor does
the loop proceed to the next batch or the other phase. -/
theorem claim_C5_counterexample :
    (dC5.synchronize respC5).raised = some "ConnectTimeout" ∧
    (dC5.synchronize respC5).requests.length = 1 ∧
    (pyChunks dC5.batch_size (setList dC5.drops)).length = 2 ∧
    (pyChunks dC5.batch_size (setList dC5.adds)).length = 1 ∧
    warnMsgs (dC5.synchronize respC5).trace = [] := by
  decide

/-- Inputs witnessing amended C5: same sets, with the exception arriving
on the third request instead. -/
def dC5b : Delta :=
  Delta.init {"a1"} { gqC5 with grouper_group := "test:grp5b" } 2 5 0 100

def respC5b : Nat → BatchResponse :=
  fun k => if k = 2 then .exn "ConnectTimeout" else .ok "SUCCESS" 1

/-- C5 (amended): a batch whose response parses to a status code — even a
failing one — never aborts the run: when every response parses, no
exception propagates and every batch of both phases is submitted.  But a
network error, timeout, or unparseable response is NOT caught: the
exception propagates out of `synchronize`, ending the run at that batch,
with no further batch of either phase attempted. -/
theorem claim_C5 (d d2 : Delta) (resp resp2 : Nat → BatchResponse)
    (hgate : d.adds.card + d.drops.card ≤ d.sync_max)
    (hbs : 0 < d.batch_size)
    (hok : ∀ k, (resp k).isOk = true)
    (hgate2 : d2.adds.card + d2.drops.card ≤ d2.sync_max)
    (hbs2 : 0 < d2.batch_size)
    (j : Nat) (e : String)
    (hj : j < (pyChunks d2.batch_size (setList d2.drops)).length +
      (pyChunks d2.batch_size (setList d2.adds)).length)
    (he : resp2 j = .exn e)
    (hok2 : ∀ i, i < j → (resp2 i).isOk = true) :
    ((d.synchronize resp).raised = none ∧
      (d.synchronize resp).requests.length =
        (pyChunks d.batch_size (setList d.drops)).length +
          (pyChunks d.batch_size (setList d.adds)).length) ∧
    ((d2.synchronize resp2).raised = some e ∧
      (d2.synchronize resp2).requests.length = j + 1) := by
  constructor
  · have h := sync_ok d resp (by omega) (by omega) hok
    refine ⟨h.1, ?_⟩
    rw [h.2.1]
    simp
  · exact sync_abort d2 resp2 (by omega) (by omega) j e hj he hok2

theorem claim_C5_witness :
    (dC5b.adds.card + dC5b.drops.card ≤ dC5b.sync_max) ∧
    (0 < dC5b.batch_size) ∧
    (∀ k, (respC1 k).isOk = true) ∧
    (2 < (pyChunks dC5b.batch_size (setList dC5b.drops)).length +
      (pyChunks dC5b.batch_size (setList dC5b.adds)).length) ∧
    (respC5b 2 = .exn "ConnectTimeout") ∧
    (∀ i, i < 2 → (respC5b i).isOk = true) ∧
    (((dC5b.synchronize respC1).raised = none ∧
      (dC5b.synchronize respC1).requests.length =
        (pyChunks dC5b.batch_size (setList dC5b.drops)).length +
          (pyChunks dC5b.batch_size (setList dC5b.adds)).length) ∧
    ((dC5b.synchronize respC5b).raised = some "ConnectTimeout" ∧
      (dC5b.synchronize respC5b).requests.length = 2 + 1)) := by
  have hok2 : ∀ i, i < 2 → (respC5b i).isOk = true := by
    intro i hi
    have h01 : i = 0 ∨ i = 1 := by omega
    rcases h01 with rfl | rfl <;> rfl
  exact ⟨by decide, by decide, fun _ => rfl, by decide, by decide, hok2,
    claim_C5 dC5b dC5b respC1 respC5b (by decide) (by decide) (fun _ => rfl)
      (by decide) (by decide) 2 "ConnectTimeout" (by decide) (by decide) hok2⟩

/-- Inputs exhibiting and witnessing C8: four members to drop in two
batches of two, where the second batch comes back with the non-success
result code "GROUP_NOT_FOUND", and one member to add. -/
def gqC8 : GrouperQuery :=
  { members := {"u1", "u2", "u3", "u4"}
    grouper_group := "test:grp8"
    grouper_members_url := "https://grouper.example.org/members"
    grouper_user := "usr"
    grouper_password := "pw" }

def dC8 : Delta := Delta.init {"a1"} gqC8 2 5 0 100

def respC8 : Nat → BatchResponse :=
  fun k => if k = 1 then .ok "GROUP_NOT_FOUND" 1 else .ok "SUCCESS" 1

/-- C8 counterexample: the second drop batch (batch index 2) fails with
result code "GROUP_NOT_FOUND".  The warning the code logs carries the
code but not the batch index: the only warning in the trace is a fixed
string that does not contain "2" (nor any digit), so the warning does
not include the batch index as the claim states. -/
theorem claim_C8_counterexample :
    warnMsgs (dC8.synchronize respC8).trace =
      ["problem running batch delete, result code = GROUP_NOT_FOUND"] ∧
    strContains
      "problem running batch delete, result code = GROUP_NOT_FOUND"
      "2" = false ∧
    (dC8.synchronize respC8).requests.length = 3 := by
  decide

/-- C8 (amended): for every batch whose response status code does not
pass the success test, `synchronize` logs a warning that includes the
returned code (but not the batch index), and then continues: the failed
batch never prevents the remaining batches of the same phase or any
batch of the other phase from being attempted. -/
theorem claim_C8 (d : Delta) (resp : Nat → BatchResponse)
    (hgate : d.adds.card + d.drops.card ≤ d.sync_max)
    (hbs : 0 < d.batch_size)
    (hok : ∀ k, (resp k).isOk = true)
    (j : Nat) (c : String) (secs : Nat)
    (hj : j < (pyChunks d.batch_size (setList d.drops)).length +
      (pyChunks d.batch_size (setList d.adds)).length)
    (hc : resp j = .ok c secs)
    (hfail : strContains "SUCCESS" c = false) :
    (∃ m, LogEvent.mk .warning m ∈ (d.synchronize resp).trace ∧
      strContains m c = true) ∧
    (d.synchronize resp).raised = none ∧
    (d.synchronize resp).requests.length =
      (pyChunks d.batch_size (setList d.drops)).length +
        (pyChunks d.batch_size (setList d.adds)).length := by
  have h := sync_ok d resp (by omega) (by omega) hok
  refine ⟨?_, h.1, by rw [h.2.1]; simp⟩
  rcases Nat.lt_or_ge j (pyChunks d.batch_size (setList d.drops)).length
    with hcase | hcase
  · have hmem := runBatches_warn_mem .drop d resp c secs j
      (pyChunks d.batch_size (setList d.drops)) 0 0 (Nat.zero_le j)
      (by omega) hc hfail (fun i _ hi => hok i)
    have hmem2 : LogEvent.mk .warning (failMsg .drop c) ∈
        (dropPhase d resp).trace := hmem
    refine ⟨failMsg .drop c, ?_, failMsg_names .drop c⟩
    rw [h.2.2]
    simp only [List.mem_append, List.mem_cons]
    tauto
  · have hd := runBatches_ok .drop d resp
      (pyChunks d.batch_size (setList d.drops)) 0 0 (fun k _ _ => hok k)
    have hd2 : (dropPhase d resp).reqCount =
        (pyChunks d.batch_size (setList d.drops)).length := by
      rw [dropPhase, hd.2.1]
      omega
    have hmem := runBatches_warn_mem .add d resp c secs j
      (pyChunks d.batch_size (setList d.adds)) 0 (dropPhase d resp).reqCount
      (by omega) (by rw [hd2]; omega) hc hfail (fun i _ hi => hok i)
    have hmem2 : LogEvent.mk .warning (failMsg .add c) ∈
        (addPhase d resp).trace := hmem
    refine ⟨failMsg .add c, ?_, failMsg_names .add c⟩
    rw [h.2.2]
    simp only [List.mem_append, List.mem_cons]
    tauto

theorem claim_C8_witness :
    (dC8.adds.card + dC8.drops.card ≤ dC8.sync_max) ∧
    (0 < dC8.batch_size) ∧
    (∀ k, (respC8 k).isOk = true) ∧
    (1 < (pyChunks dC8.batch_size (setList dC8.drops)).length +
      (pyChunks dC8.batch_size (setList dC8.adds)).length) ∧
    (respC8 1 = .ok "GROUP_NOT_FOUND" 1) ∧
    (strContains "SUCCESS" "GROUP_NOT_FOUND" = false) ∧
    ((∃ m, LogEvent.mk .warning m ∈ (dC8.synchronize respC8).trace ∧
      strContains m "GROUP_NOT_FOUND" = true) ∧
    (dC8.synchronize respC8).raised = none ∧
    (dC8.synchronize respC8).requests.length =
      (pyChunks dC8.batch_size (setList dC8.drops)).length +
        (pyChunks dC8.batch_size (setList dC8.adds)).length) := by
  have hok : ∀ k, (respC8 k).isOk = true := by
    intro k
    by_cases hk : k = 1
    · subst hk; rfl
    · simp [respC8, hk, BatchResponse.isOk]
  exact ⟨by decide, by decide, hok, by decide, by decide, by decide,
    claim_C8 dC8 respC8 (by decide) (by decide) hok 1 "GROUP_NOT_FOUND" 1
      (by decide) (by decide) (by decide)⟩

theorem setList_ne_nil (s : Finset String) (hs : s ≠ ∅) :
    setList s ≠ [] := by
  intro hcon
  have hlen := congrArg List.length hcon
  rw [setList_length] at hlen
  simp at hlen
  exact hs hlen

theorem pyChunks_ne_nil (size : Nat) (hs : 0 < size) (xs : List String)
    (hx : xs ≠ []) : pyChunks size xs ≠ [] := by
  intro hcon
  have hlen := congrArg List.length hcon
  rw [pyChunks_length size hs] at hlen
  simp at hlen
  have hx2 : 0 < xs.length := List.length_pos.mpr hx
  have hpos : 0 < (xs.length + size - 1) / size := Nat.div_pos (by omega) hs
  omega

/-- Inputs witnessing C6: two members to add, three to drop, responses
all successful. -/
def gqC6 : GrouperQuery :=
  { members := {"u1", "u2", "u3"}
    grouper_group := "test:grp6"
    grouper_members_url := "https://grouper.example.org/members"
    grouper_user := "usr"
    grouper_password := "pw" }

def dC6 : Delta := Delta.init {"a1", "a2"} gqC6 2 5 1 100

def respC6 : Nat → BatchResponse := fun _ => .ok "SUCCESS" 1

/-- C6: in a run that passes the safety gate with non-empty adds and
drops and whose responses all parse, the issued request sequence is
exactly the drop-phase requests followed by the add-phase requests: the
drop phase — covering all of `drops` — completes fully before the first
add-phase batch begins. -/
theorem claim_C6 (d : Delta) (resp : Nat → BatchResponse)
    (hgate : d.adds.card + d.drops.card ≤ d.sync_max)
    (hbs : 0 < d.batch_size)
    (hok : ∀ k, (resp k).isOk = true)
    (hd : d.drops ≠ ∅) (ha : d.adds ≠ ∅) :
    ∃ dropReqs addReqs,
      (d.synchronize resp).requests = dropReqs ++ addReqs ∧
      dropReqs ≠ [] ∧ addReqs ≠ [] ∧
      (∀ r ∈ dropReqs, r.envelope = "WsRestDeleteMemberRequest") ∧
      (∀ r ∈ addReqs, r.envelope = "WsRestAddMemberRequest") ∧
      (dropReqs.map (fun r => r.subjectIds)).flatten = setList d.drops ∧
      (addReqs.map (fun r => r.subjectIds)).flatten = setList d.adds := by
  have h := sync_ok d resp (by omega) (by omega) hok
  refine ⟨_, _, h.2.1, ?_, ?_, ?_, ?_, ?_, ?_⟩
  · simp only [ne_eq, List.map_eq_nil_iff]
    exact pyChunks_ne_nil _ hbs _ (setList_ne_nil _ hd)
  · simp only [ne_eq, List.map_eq_nil_iff]
    exact pyChunks_ne_nil _ hbs _ (setList_ne_nil _ ha)
  · intro r hrm
    rcases List.mem_map.mp hrm with ⟨b, _, rfl⟩
    rfl
  · intro r hrm
    rcases List.mem_map.mp hrm with ⟨b, _, rfl⟩
    rfl
  · rw [subjectIds_map]
    exact pyChunks_flatten _ hbs _
  · rw [subjectIds_map]
    exact pyChunks_flatten _ hbs _

theorem claim_C6_witness :
    (dC6.adds.card + dC6.drops.card ≤ dC6.sync_max) ∧
    (0 < dC6.batch_size) ∧
    (∀ k, (respC6 k).isOk = true) ∧
    (dC6.drops ≠ ∅) ∧ (dC6.adds ≠ ∅) ∧
    (∃ dropReqs addReqs,
      (dC6.synchronize respC6).requests = dropReqs ++ addReqs ∧
      dropReqs ≠ [] ∧ addReqs ≠ [] ∧
      (∀ r ∈ dropReqs, r.envelope = "WsRestDeleteMemberRequest") ∧
      (∀ r ∈ addReqs, r.envelope = "WsRestAddMemberRequest") ∧
      (dropReqs.map (fun r => r.subjectIds)).flatten = setList dC6.drops ∧
      (addReqs.map (fun r => r.subjectIds)).flatten = setList dC6.adds) :=
  ⟨by decide, by decide, fun _ => rfl, by decide, by decide,
    claim_C6 dC6 respC6 (by decide) (by decide) (fun _ => rfl)
      (by decide) (by decide)⟩

/-- Inputs witnessing C7: five members to add with batch size 2, so the
add phase issues exactly three requests of sizes 2, 2, 1. -/
def gqC7 : GrouperQuery :=
  { members := ∅
    grouper_group := "test:grp7"
    grouper_members_url := "https://grouper.example.org/members"
    grouper_user := "usr"
    grouper_password := "pw" }

def dC7 : Delta := Delta.init {"A", "B", "C", "D", "E"} gqC7 2 5 0 100

def respC7 : Nat → BatchResponse := fun _ => .ok "SUCCESS" 1

/-- C7: in a gate-passing run with `batch_size > 0` and responses that
all parse, each of `drops` and `adds` is partitioned into consecutive
batches: the issued requests split into the drop-phase and add-phase
request lists, each phase issues exactly the ceiling of n divided by
`batch_size` requests for its set of size n, the concatenation of the
request member lists enumerates the corresponding set exactly once
(without duplicates), every batch is non-empty with at most `batch_size`
members, and every batch except possibly the last has exactly
`batch_size` members. -/
theorem claim_C7 (d : Delta) (resp : Nat → BatchResponse)
    (hgate : d.adds.card + d.drops.card ≤ d.sync_max)
    (hbs : 0 < d.batch_size)
    (hok : ∀ k, (resp k).isOk = true) :
    ∃ dropReqs addReqs,
      (d.synchronize resp).requests = dropReqs ++ addReqs ∧
      dropReqs.length = (d.drops.card + d.batch_size - 1) / d.batch_size ∧
      addReqs.length = (d.adds.card + d.batch_size - 1) / d.batch_size ∧
      (dropReqs.map (fun r => r.subjectIds)).flatten = setList d.drops ∧
      (addReqs.map (fun r => r.subjectIds)).flatten = setList d.adds ∧
      (setList d.drops).Nodup ∧ (setList d.adds).Nodup ∧
      (∀ x, x ∈ setList d.drops ↔ x ∈ d.drops) ∧
      (∀ x, x ∈ setList d.adds ↔ x ∈ d.adds) ∧
      (∀ r ∈ dropReqs, r.subjectIds ≠ [] ∧
        r.subjectIds.length ≤ d.batch_size) ∧
      (∀ r ∈ addReqs, r.subjectIds ≠ [] ∧
        r.subjectIds.length ≤ d.batch_size) ∧
      (∀ i, i + 1 < dropReqs.length →
        ((dropReqs.map (fun r => r.subjectIds)).getD i []).length =
          d.batch_size) ∧
      (∀ i, i + 1 < addReqs.length →
        ((addReqs.map (fun r => r.subjectIds)).getD i []).length =
          d.batch_size) := by
  have h := sync_ok d resp (by omega) (by omega) hok
  refine ⟨_, _, h.2.1, ?_, ?_, ?_, ?_, setList_nodup _, setList_nodup _,
    setList_mem _, setList_mem _, ?_, ?_, ?_, ?_⟩
  · rw [List.length_map, pyChunks_length _ hbs, setList_length]
  · rw [List.length_map, pyChunks_length _ hbs, setList_length]
  · rw [subjectIds_map]
    exact pyChunks_flatten _ hbs _
  · rw [subjectIds_map]
    exact pyChunks_flatten _ hbs _
  · intro r hrm
    rcases List.mem_map.mp hrm with ⟨b, hb, rfl⟩
    exact pyChunks_mem _ hbs _ _ hb
  · intro r hrm
    rcases List.mem_map.mp hrm with ⟨b, hb, rfl⟩
    exact pyChunks_mem _ hbs _ _ hb
  · intro i hi
    rw [subjectIds_map]
    rw [List.length_map] at hi
    exact pyChunks_getD _ hbs _ i hi
  · intro i hi
    rw [subjectIds_map]
    rw [List.length_map] at hi
    exact pyChunks_getD _ hbs _ i hi

theorem claim_C7_witness :
    (dC7.adds.card + dC7.drops.card ≤ dC7.sync_max) ∧
    (0 < dC7.batch_size) ∧
    (∀ k, (respC7 k).isOk = true) ∧
    (dC7.adds.card = 5 ∧ dC7.batch_size = 2 ∧
      (dC7.adds.card + dC7.batch_size - 1) / dC7.batch_size = 3) ∧
    (∃ dropReqs addReqs,
      (dC7.synchronize respC7).requests = dropReqs ++ addReqs ∧
      dropReqs.length = (dC7.drops.card + dC7.batch_size - 1) / dC7.batch_size ∧
      addReqs.length = (dC7.adds.card + dC7.batch_size - 1) / dC7.batch_size ∧
      (dropReqs.map (fun r => r.subjectIds)).flatten = setList dC7.drops ∧
      (addReqs.map (fun r => r.subjectIds)).flatten = setList dC7.adds ∧
      (setList dC7.drops).Nodup ∧ (setList dC7.adds).Nodup ∧
      (∀ x, x ∈ setList dC7.drops ↔ x ∈ dC7.drops) ∧
      (∀ x, x ∈ setList dC7.adds ↔ x ∈ dC7.adds) ∧
      (∀ r ∈ dropReqs, r.subjectIds ≠ [] ∧
        r.subjectIds.length ≤ dC7.batch_size) ∧
      (∀ r ∈ addReqs, r.subjectIds ≠ [] ∧
        r.subjectIds.length ≤ dC7.batch_size) ∧
      (∀ i, i + 1 < dropReqs.length →
        ((dropReqs.map (fun r => r.subjectIds)).getD i []).length =
          dC7.batch_size) ∧
      (∀ i, i + 1 < addReqs.length →
        ((addReqs.map (fun r => r.subjectIds)).getD i []).length =
          dC7.batch_size)) :=
  ⟨by decide, by decide, fun _ => rfl, by decide,
    claim_C7 dC7 respC7 (by decide) (by decide) (fun _ => rfl)⟩

/-- Inputs witnessing C9: one member to drop, none to add. -/
def gqC9 : GrouperQuery :=
  { members := {"u1"}
    grouper_group := "test:grp9"
    grouper_members_url := "https://grouper.example.org/members"
    grouper_user := "usr"
    grouper_password := "pw" }

def dC9 : Delta := Delta.init ∅ gqC9 2 7 0 100

def respC9 : Nat → BatchResponse := fun _ => .ok "SUCCESS" 1

/-- C9: every issued request goes to `grouper_members_url` with the basic
auth credentials from the query bundle, content type `text/x-json`,
`replaceAllExisting = "F"`, the configured timeout, and lists exactly
the member ids of one batch; drop batches are POSTed (the
delete-semantics request) with the `WsRestDeleteMemberRequest` envelope,
add batches are PUT with the `WsRestAddMemberRequest` envelope. -/
theorem claim_C9 (d : Delta) (resp : Nat → BatchResponse) (r : HttpRequest)
    (hr : r ∈ (d.synchronize resp).requests) :
    r.url = d.grouper_query_dict.grouper_members_url ∧
    r.auth_user = d.grouper_query_dict.grouper_user ∧
    r.auth_password = d.grouper_query_dict.grouper_password ∧
    r.contentType = "text/x-json" ∧
    r.replaceAllExisting = "F" ∧
    r.timeout = d.batch_timeout ∧
    ((r.verb = Verb.post ∧ r.envelope = "WsRestDeleteMemberRequest" ∧
        ∃ b ∈ pyChunks d.batch_size (setList d.drops), r.subjectIds = b) ∨
      (r.verb = Verb.put ∧ r.envelope = "WsRestAddMemberRequest" ∧
        ∃ b ∈ pyChunks d.batch_size (setList d.adds), r.subjectIds = b)) := by
  rcases sync_requests_mem d resp r hr with ⟨b, hb, rfl⟩ | ⟨b, hb, rfl⟩
  · exact ⟨rfl, rfl, rfl, rfl, rfl, rfl, Or.inl ⟨rfl, rfl, b, hb, rfl⟩⟩
  · exact ⟨rfl, rfl, rfl, rfl, rfl, rfl, Or.inr ⟨rfl, rfl, b, hb, rfl⟩⟩

theorem claim_C9_witness :
    (mkRequest .drop dC9 ["u1"] ∈ (dC9.synchronize respC9).requests) ∧
    ((mkRequest .drop dC9 ["u1"]).url =
        dC9.grouper_query_dict.grouper_members_url ∧
      (mkRequest .drop dC9 ["u1"]).auth_user =
        dC9.grouper_query_dict.grouper_user ∧
      (mkRequest .drop dC9 ["u1"]).auth_password =
        dC9.grouper_query_dict.grouper_password ∧
      (mkRequest .drop dC9 ["u1"]).contentType = "text/x-json" ∧
      (mkRequest .drop dC9 ["u1"]).replaceAllExisting = "F" ∧
      (mkRequest .drop dC9 ["u1"]).timeout = dC9.batch_timeout ∧
      (((mkRequest .drop dC9 ["u1"]).verb = Verb.post ∧
          (mkRequest .drop dC9 ["u1"]).envelope =
            "WsRestDeleteMemberRequest" ∧
          ∃ b ∈ pyChunks dC9.batch_size (setList dC9.drops),
            (mkRequest .drop dC9 ["u1"]).subjectIds = b) ∨
        ((mkRequest .drop dC9 ["u1"]).verb = Verb.put ∧
          (mkRequest .drop dC9 ["u1"]).envelope = "WsRestAddMemberRequest" ∧
          ∃ b ∈ pyChunks dC9.batch_size (setList dC9.adds),
            (mkRequest .drop dC9 ["u1"]).subjectIds = b))) :=
  ⟨by decide, claim_C9 dC9 respC9 (mkRequest .drop dC9 ["u1"]) (by decide)⟩

/-- C10: the three derived sets are computed eagerly at construction time
from the two input sets, and `synchronize` leaves the whole instance —
the three sets, the stored inputs, and every configuration field —
unchanged, so repeated reads of the accessors after any number of
`synchronize` calls return the same sets. -/
theorem claim_C10 (d : Delta) (resp resp2 : Nat → BatchResponse)
    (a : Finset String) (gq : GrouperQuery) (bs bt bd sm : Nat) :
    (d.synchronize resp).delta = d ∧
    ((d.synchronize resp).delta.synchronize resp2).delta = d ∧
    (Delta.init a gq bs bt bd sm).adds = a \ gq.members ∧
    (Delta.init a gq bs bt bd sm).drops = gq.members \ a ∧
    (Delta.init a gq bs bt bd sm).common = a ∩ gq.members :=
  ⟨sync_delta d resp, by rw [sync_delta, sync_delta], rfl, rfl, rfl⟩

end ReQUIAM
